import Mathlib

/-!
Shallow embedding of the `rlist` reading-list manager (Rust + SQLite).

The database state is modelled as three relations held in lists
(`rlist`, `topics`, `rlist_has_topic` in the schema created by
`RList::init` in `src/rlist.rs`), together with the next row ids that
SQLite would assign.  Each repository function from `src/db/entry.rs`,
`src/db/topic.rs` and each service function from `src/rlist.rs` becomes
a Lean function over this state; fallible operations return
`Except String` carrying the error message the Rust code builds with
`anyhow!`.  SQL statements are modelled by their SQLite semantics,
including two degenerate cases the code can generate: an `INSERT`
whose `VALUES` list is empty is a syntax error (statement preparation
fails), while an empty `IN ()` list is accepted by SQLite and matches
nothing.
-/

namespace Rlist

/-- A row of the `rlist` table: `entry_id INTEGER PRIMARY KEY`,
`name TEXT UNIQUE`, `url TEXT UNIQUE`, `author TEXT` (stored as a plain
string; the code writes the literal string "NULL" for a missing author),
`added DATETIME`. -/
structure EntryRow where
  entry_id : Nat
  name : String
  url : String
  author : String
  added : String
deriving DecidableEq, Repr

/-- A row of the `topics` table: `topic_id INTEGER PRIMARY KEY`, `name TEXT UNIQUE`. -/
structure TopicRow where
  topic_id : Nat
  name : String
deriving DecidableEq, Repr

/-- A row of the link table `rlist_has_topic (entry_id, topic_id)`. -/
structure LinkRow where
  entry_id : Nat
  topic_id : Nat
deriving DecidableEq, Repr

/-- The whole SQLite database state, plus the rowids SQLite would
assign to the next inserted entry and topic. -/
structure DB where
  entries : List EntryRow
  topics : List TopicRow
  links : List LinkRow
  nextEntryId : Nat
  nextTopicId : Nat
deriving DecidableEq, Repr

/-- The domain record `Entry` from `src/entry.rs`. -/
structure Entry where
  name : String
  url : String
  author : Option String
  topics : List String
  added : String
deriving DecidableEq, Repr

/-- `Entry::new` from `src/entry.rs`: `added.unwrap_or_default()`. -/
def Entry.new (name url : String) (author : Option String)
    (topics : List String) (added : Option String) : Entry :=
  ⟨name, url, author, topics, added.getD ""⟩

/-- `ToSQL for Option<&str>` from `src/utils.rs`: a missing author is
stored as the literal string "NULL". -/
def optToSql : Option String → String
  | some v => v
  | none => "NULL"

/-- `opt_from_sql` from `src/utils.rs`: the literal string "NULL" reads
back as `None`, anything else as `Some`. -/
def optFromSql (repr : String) : Option String :=
  if repr = "NULL" then none else some repr

/-- An `sqlite::Error`: an optional result code and an optional message. -/
structure SqliteError where
  code : Option Nat
  message : Option String
deriving DecidableEq, Repr

/-- Whitespace trimming on a character list (Rust's `str::trim`;
only the space character occurs in the messages involved). -/
def trimChars (l : List Char) : List Char :=
  ((l.dropWhile (fun c => c = ' ')).reverse.dropWhile (fun c => c = ' ')).reverse

/-- `get_conflicting_column_name` from `src/utils.rs`: on a code-19
error whose message starts with "UNIQUE constraint failed: ", slice the
message from `prefixLen - 1` (keeping one space of the marker, an
off-by-one in the source) and trim. -/
def get_conflicting_column_name (err : SqliteError) : Option String :=
  match err.code, err.message with
  | some 19, some msg =>
      let pre := "UNIQUE constraint failed: ".data
      if pre.isPrefixOf msg.data then
        some (String.mk (trimChars (msg.data.drop (pre.length - 1))))
      else none
  | _, _ => none

/-- Rust's `str::split_once` on a character list: split around the
first occurrence of the separator character. -/
def splitOnceChars (c : Char) : List Char → Option (List Char × List Char)
  | [] => none
  | a :: as =>
      if a = c then some ([], as)
      else (splitOnceChars c as).map (fun p => (a :: p.1, p.2))

/-- Rust's `str::split_once('.')`: split at the first dot, when present. -/
def splitOnceDot (s : String) : Option (String × String) :=
  (splitOnceChars '.' s.data).map (fun p => (String.mk p.1, String.mk p.2))

/-- ASCII-style lowering of a string to a character list, used to model
SQLite's default case-insensitive `LIKE`. -/
def strLower (s : String) : List Char := s.data.map Char.toLower

/-- The `column LIKE '%' || :pat || '%'` predicate used by
`RList::query`: case-insensitive substring containment. -/
def likeMatch (pat s : String) : Bool :=
  decide (strLower pat <:+: strLower s)

namespace DBTopic

/-- Recursive core of `DBTopic::create_many`: the upsert
`INSERT INTO topics (name) VALUES (?),... ON CONFLICT (name) DO UPDATE
SET name=name RETURNING topic_id` processes one `VALUES` row at a time;
a conflicting name returns the existing row's id, a fresh name inserts
a new row with the next rowid. -/
def createManyGo (db : DB) : List String → List Nat × DB
  | [] => ([], db)
  | n :: ns =>
    match db.topics.find? (fun t => t.name == n) with
    | some t =>
        let r := createManyGo db ns
        (t.topic_id :: r.1, r.2)
    | none =>
        let db1 : DB :=
          { db with
            topics := db.topics ++ [⟨db.nextTopicId, n⟩],
            nextTopicId := db.nextTopicId + 1 }
        let r := createManyGo db1 ns
        (db.nextTopicId :: r.1, r.2)

/-- `DBTopic::create_many` from `src/db/topic.rs`.  For an empty input
the generated statement has an empty `VALUES` list, which SQLite
rejects at `prepare` time. -/
def create_many (db : DB) (topics : List String) :
    Except String (List Nat × DB) :=
  if topics.isEmpty then
    .error "SQL syntax error: INSERT with empty VALUES list"
  else
    .ok (createManyGo db topics)

/-- `DBTopic::get_related_to` from `src/db/topic.rs`: the topics joined
to an entry through the link table. -/
def get_related_to (db : DB) (entry_id : Nat) : List (Nat × String) :=
  (db.links.filter (fun l => l.entry_id == entry_id)).filterMap
    (fun l =>
      (db.topics.find? (fun t => t.topic_id == l.topic_id)).map
        (fun t => (t.topic_id, t.name)))

/-- `DBTopic::get_id_from_name` from `src/db/topic.rs`: NotFound error
when no topic row has the given name. -/
def get_id_from_name (db : DB) (topic : String) : Except String Nat :=
  match db.topics.find? (fun t => t.name == topic) with
  | some t => .ok t.topic_id
  | none => .error ("Could not find topic " ++ topic ++ " in your reading list")

end DBTopic

namespace DBEntry

/-- One `VALUES` row of the upsert in `DBEntry::associate_with_topics`:
insert the `(entry_id, topic_id)` pair unless a matching link row
already exists (`ON CONFLICT (entry_id, topic_id) DO UPDATE SET
entry_id=entry_id` keeps the existing row). -/
def assocStep (entry_id : Nat) (ls : List LinkRow) (tid : Nat) : List LinkRow :=
  if ls.any (fun l => l.entry_id == entry_id && l.topic_id == tid) then ls
  else ls ++ [⟨entry_id, tid⟩]

/-- `DBEntry::associate_with_topics` from `src/db/entry.rs`.  An empty
`topic_ids` list makes the generated `INSERT ... VALUES` clause empty, a
SQLite syntax error at `prepare` time.  Otherwise the upsert inserts
each missing `(entry_id, topic_id)` pair and leaves existing pairs
alone (`ON CONFLICT DO UPDATE SET entry_id=entry_id`); with
`PRAGMA foreign_keys = ON` a reference to a missing entry or topic row
fails the whole statement, leaving the table unchanged. -/
def associate_with_topics (db : DB) (entry_id : Nat)
    (topic_ids : List Nat) : Except String DB :=
  if topic_ids.isEmpty then
    .error "SQL syntax error: INSERT with empty VALUES list"
  else if !(db.entries.any (fun e => e.entry_id == entry_id)) then
    .error "FOREIGN KEY constraint failed"
  else if !(topic_ids.all (fun tid => db.topics.any (fun t => t.topic_id == tid))) then
    .error "FOREIGN KEY constraint failed"
  else
    .ok { db with links := topic_ids.foldl (assocStep entry_id) db.links }

/-- The conflict message `DBEntry::create` builds (typo included) when
`get_conflicting_column_name` yields a `table.column` pair. -/
def conflictMsgFor (name col_name : String) : String :=
  "Could not create entry with name " ++ name ++
    " beacuase your reading list already contains an entry with the same value for " ++
    col_name

/-- The generic conflict message of `DBEntry::create` for a column
string with no dot (unreachable in practice). -/
def conflictMsgGeneric (name : String) : String :=
  "Could not create entry with name " ++ name ++
    " because your reading list already contains an entry that has the same value for name or url"

/-- The message of the `sqlite::Error` raised by a UNIQUE violation on
the given `rlist` column. -/
def uniqueErr (col : String) : SqliteError :=
  ⟨some 19, some ("UNIQUE constraint failed: rlist." ++ col)⟩

/-- The error message `DBEntry::create` returns for a code-19 error,
obtained by feeding the raw SQLite error through
`get_conflicting_column_name` and `split_once('.')`. -/
def createConflictError (name : String) (err : SqliteError) : String :=
  match get_conflicting_column_name err with
  | some col =>
      match splitOnceDot col with
      | some (_, col_name) => conflictMsgFor name col_name
      | none => conflictMsgGeneric name
  | none => "unclassified sqlite error"

/-- `DBEntry::create` from `src/db/entry.rs`:
`INSERT INTO rlist (name, url, author) VALUES (...) RETURNING *` with
the author put through `ToSQL` ("NULL" for a missing author).  A UNIQUE
violation on `name` or `url` yields the code-19 error which `create`
turns into a column-specific conflict message; the failed statement
leaves the database unchanged, so `create` returns the untouched state
alongside the error. -/
def create (db : DB) (name url : String) (author : Option String)
    (now : String) : Except String (Nat × Entry) × DB :=
  if db.entries.any (fun e => e.name == name) then
    (.error (createConflictError name (uniqueErr "name")), db)
  else if db.entries.any (fun e => e.url == url) then
    (.error (createConflictError name (uniqueErr "url")), db)
  else
    let row : EntryRow := ⟨db.nextEntryId, name, url, optToSql author, now⟩
    (.ok (db.nextEntryId,
          Entry.new name url author [] (some now)),
     { db with entries := db.entries ++ [row],
               nextEntryId := db.nextEntryId + 1 })

/-- `DBEntry::get_id_from_name` from `src/db/entry.rs`: `None` when no
entry row has the given name, never an error. -/
def get_id_from_name (db : DB) (name : String) : Option Nat :=
  (db.entries.find? (fun e => e.name == name)).map (fun e => e.entry_id)

/-- `DBEntry::unlink_all_topics` from `src/db/entry.rs`:
`DELETE FROM rlist_has_topic WHERE entry_id = :entry_id`. -/
def unlink_all_topics (db : DB) (entry_id : Nat) : DB :=
  { db with links := db.links.filter (fun l => !(l.entry_id == entry_id)) }

/-- `DBEntry::unlink_topics_by_name` from `src/db/entry.rs`: deletes
the links of `entry_id` whose topic's name is among `topics`.  An empty
list produces `IN ()`, which SQLite accepts and which matches no row. -/
def unlink_topics_by_name (db : DB) (entry_id : Nat)
    (topics : List String) : DB :=
  { db with
    links := db.links.filter
      (fun l => !(l.entry_id == entry_id &&
        db.topics.any (fun t => t.topic_id == l.topic_id &&
          topics.contains t.name))) }

/-- `DBEntry::remove_by_name` from `src/db/entry.rs`: NotFound when the
name resolves to no entry id; otherwise the topics are fetched first,
then `DELETE FROM rlist WHERE name = ... RETURNING *` removes the row
(its link rows cascade away) and the returned entry is rebuilt from the
deleted row plus the pre-fetched topic names. -/
def remove_by_name (db : DB) (name : String) :
    Except String (Entry × DB) :=
  match db.entries.find? (fun e => e.name == name) with
  | none =>
      .error ("Could not find any entry with name " ++ name ++
        " in your reading list")
  | some row =>
      let topics := (DBTopic.get_related_to db row.entry_id).map (fun p => p.2)
      let db' : DB :=
        { db with
          entries := db.entries.filter (fun e => !(e.name == name)),
          links := db.links.filter (fun l => !(l.entry_id == row.entry_id)) }
      .ok (Entry.new row.name row.url (optFromSql row.author) topics
            (some row.added), db')

/-- `DBEntry::get_by_name_without_topics` from `src/db/entry.rs`:
NotFound error when absent, otherwise the id and the entry with an
empty topic list. -/
def get_by_name_without_topics (db : DB) (name : String) :
    Except String (Nat × Entry) :=
  match db.entries.find? (fun e => e.name == name) with
  | none =>
      .error ("Could not find any entry in your reading list with name " ++ name)
  | some row =>
      .ok (row.entry_id,
        Entry.new row.name row.url (optFromSql row.author) [] (some row.added))

/-- `DBEntry::remove_related_to` from `src/db/entry.rs`:
`DELETE FROM rlist WHERE entry_id IN (SELECT entry_id FROM
rlist_has_topic WHERE topic_id = :topic_id)`; the deleted entries' link
rows cascade away. -/
def remove_related_to (db : DB) (topic_id : Nat) : DB :=
  let doomed :=
    (db.links.filter (fun l => l.topic_id == topic_id)).map (fun l => l.entry_id)
  { db with
    entries := db.entries.filter (fun e => !(doomed.contains e.entry_id)),
    links := db.links.filter (fun l => !(doomed.contains l.entry_id)) }

end DBEntry

/-- One row of the flat result of
`SELECT ls.name, ls.url, ls.author, ls.added, t.name AS topic FROM
rlist AS ls LEFT OUTER JOIN rlist_has_topic ... LEFT OUTER JOIN topics ...`:
the entry columns plus an optional topic name (`NULL` when the entry
has no links or the link's topic row is missing). -/
structure Row where
  name : String
  url : String
  author : String
  added : String
  topic : Option String
deriving DecidableEq, Repr

/-- The flat rows the double left outer join produces for one entry:
one null-topic row when it has no links, else one row per link. -/
def entryRows (db : DB) (e : EntryRow) : List Row :=
  match db.links.filter (fun l => l.entry_id == e.entry_id) with
  | [] => [⟨e.name, e.url, e.author, e.added, none⟩]
  | ls => ls.map (fun l =>
      ⟨e.name, e.url, e.author, e.added,
        (db.topics.find? (fun t => t.topic_id == l.topic_id)).map
          (fun t => t.name)⟩)

/-- All flat rows of the join, scanning `rlist` in table order. -/
def joinRows (db : DB) : List Row :=
  db.entries.flatMap (entryRows db)

/-- The `WHERE` clause `RList::query` assembles: optional `LIKE`
substring filters on name, author, url and inclusive bounds on the
`added` string, combined with AND.  All clauses read only entry
columns, so the predicate is a function of the row's entry part. -/
def rowFilter (q author url dateFrom dateTo : Option String) (r : Row) : Bool :=
  (match q with | none => true | some p => likeMatch p r.name) &&
  (match author with | none => true | some p => likeMatch p r.author) &&
  (match url with | none => true | some p => likeMatch p r.url) &&
  (match dateFrom with | none => true | some d => decide (d ≤ r.added)) &&
  (match dateTo with | none => true | some d => decide (r.added ≤ d))

/-- The sort columns accepted by `ORDER BY` in `RList::query`
(`OrderBy` in `src/rlist.rs`). -/
inductive OrderBy where
  | name
  | url
  | author
  | added
deriving DecidableEq, Repr

/-- The column value a `Row` contributes to `ORDER BY`. -/
def sortKey : OrderBy → Row → String
  | .name, r => r.name
  | .url, r => r.url
  | .author, r => r.author
  | .added, r => r.added

/-- The `ORDER BY col ASC|DESC` step of `RList::query` over the flat
join rows. -/
def sortRows (col : OrderBy) (desc : Bool) (rows : List Row) : List Row :=
  rows.mergeSort (fun a b =>
    if desc then sortKey col b ≤ sortKey col a
    else sortKey col a ≤ sortKey col b)

/-- One step of the row-to-entry aggregation loop in `RList::query` and
`DBEntry::get_all_complete`: the first aggregate whose name matches the
row gets the row's topic appended (when non-null). -/
def appendTopicTo (n t : String) : List Entry → List Entry
  | [] => []
  | e :: es =>
      if e.name == n then { e with topics := e.topics ++ [t] } :: es
      else e :: appendTopicTo n t es

/-- Processing of one flat row by the aggregation loop: push the topic
onto the existing aggregate for this name, or start a new aggregate
whose author is decoded with `opt_from_sql` and whose topic list is
empty or a singleton. -/
def addRow (acc : List Entry) (r : Row) : List Entry :=
  if acc.any (fun e => e.name == r.name) then
    match r.topic with
    | some t => appendTopicTo r.name t acc
    | none => acc
  else
    acc ++ [Entry.new r.name r.url (optFromSql r.author)
      (match r.topic with | some t => [t] | none => []) (some r.added)]

/-- The full `while let State::Row` aggregation loop. -/
def aggregateRows (rows : List Row) : List Entry :=
  rows.foldl addRow []

/-- `DBEntry::get_all_complete` from `src/db/entry.rs`: the unfiltered,
unsorted join aggregated into entries with topic lists. -/
def DBEntry.get_all_complete (db : DB) : List Entry :=
  aggregateRows (joinRows db)

/-- Loop invariant of the aggregation fold: after consuming a prefix of
the flat rows, the accumulated aggregates have pairwise-distinct names,
carry exactly the names seen so far, and each aggregate's topic list is
the sequence of non-null topic values of the consumed rows bearing its
name. -/
def AggInv (consumed : List Row) (acc : List Entry) : Prop :=
  (acc.map (fun e => e.name)).Nodup
  ∧ (∀ n, (∃ e ∈ acc, e.name = n) ↔ ∃ r ∈ consumed, r.name = n)
  ∧ (∀ e ∈ acc, e.topics
      = (consumed.filter (fun r => r.name == e.name)).filterMap (fun r => r.topic))

/-- The post-aggregation topic filter of `RList::query`: the size of
the intersection of the entry's topic set and the required topic set is
compared with zero (`or` mode) or with the required set's size
(default, AND mode). -/
def topicFilter (orMode : Bool) (req : List String) (e : Entry) : Bool :=
  let interLen := ((e.topics.dedup).filter (fun t => req.contains t)).length
  if orMode then decide (0 < interLen) else interLen == req.dedup.length

namespace RList

/-- `RList::query` from `src/rlist.rs`: the join rows pass the
assembled `WHERE` clause, are optionally sorted, aggregated into
entries, and finally the optional topic filter prunes the aggregates. -/
def query (db : DB) (q : Option String) (topics : Option (List String))
    (author url : Option String) (sortBy : Option OrderBy) (desc : Bool)
    (dateFrom dateTo : Option String) (orMode : Bool) : List Entry :=
  let rows := (joinRows db).filter (rowFilter q author url dateFrom dateTo)
  let rows :=
    match sortBy with
    | none => rows
    | some col => sortRows col desc rows
  let res := aggregateRows rows
  match topics with
  | none => res
  | some ts => res.filter (topicFilter orMode ts)

/-- `RList::remove_by_name` from `src/rlist.rs`: delegates to
`DBEntry::remove_by_name`. -/
def remove_by_name (db : DB) (name : String) : Except String (Entry × DB) :=
  DBEntry.remove_by_name db name

/-- `RList::remove_by_topic` from `src/rlist.rs`: resolve the topic id
(NotFound if the topic row is absent), query the entries currently in
the topic (default AND mode, no other filters), then bulk-delete the
entries linked to the topic id and return the queried entries. -/
def remove_by_topic (db : DB) (topic : String) :
    Except String (List Entry × DB) := do
  let topic_id ← DBTopic.get_id_from_name db topic
  let entries := query db none (some [topic]) none none none false none none false
  let db' := DBEntry.remove_related_to db topic_id
  .ok (entries, db')

/-- `RList::remove_by_topics` from `src/rlist.rs`: process the topics
in order, extending one accumulated list; a topic-lookup failure aborts
with that error. -/
def remove_by_topics (db : DB) : List String → Except String (List Entry × DB)
  | [] => .ok ([], db)
  | t :: ts => do
      let (old_entries, db') ← remove_by_topic db t
      let (rest, db'') ← remove_by_topics db' ts
      .ok (old_entries ++ rest, db'')

/-- The conditional `UPDATE rlist SET ... WHERE name = :old_name
RETURNING *` step of `RList::edit`, applied when at least one of
name/author/url was supplied: NotFound when no row matches; a UNIQUE
collision of the new name or url with a different row fails the
statement; otherwise the matching row is updated in place and returned. -/
def editUpdateRow (db : DB) (old_name : String)
    (new_name author url : Option String) :
    Except String (Nat × Entry × DB) :=
  match db.entries.find? (fun e => e.name == old_name) with
  | none =>
      .error ("Could not find any entry in your reading list with name " ++ old_name)
  | some row =>
      let row' : EntryRow :=
        { row with
          name := new_name.getD row.name,
          author := author.getD row.author,
          url := url.getD row.url }
      if db.entries.any (fun e =>
          !(e.entry_id == row.entry_id) &&
          (e.name == row'.name || e.url == row'.url)) then
        .error "UNIQUE constraint failed"
      else
        .ok (row.entry_id,
          Entry.new row'.name row'.url (optFromSql row'.author) []
            (some row'.added),
          { db with entries :=
              db.entries.map (fun e => if e.entry_id == row.entry_id then row' else e) })

/-- `RList::edit` from `src/rlist.rs`.  Rejects a fully-empty edit;
updates or fetches the row; clears all links when `clear_topics` or
`topics` is set; links `topics` if supplied, else `add_topics`
(`topics` has precedence); then unlinks `remove_topics`; finally
re-fetches the topic names from the link table. -/
def edit (db : DB) (old_name : String) (new_name author url : Option String)
    (topics add_topics : Option (List String)) (clear_topics : Bool)
    (remove_topics : Option (List String)) : Except String (Entry × DB) := do
  if new_name.isNone && author.isNone && url.isNone && topics.isNone &&
      add_topics.isNone && !clear_topics && remove_topics.isNone then
    .error "No edit options were given"
  else
    let (entry_id, entry, db1) ←
      if new_name.isNone && author.isNone && url.isNone then
        (DBEntry.get_by_name_without_topics db old_name).map
          (fun p => (p.1, p.2, db))
      else
        editUpdateRow db old_name new_name author url
    let db2 :=
      if clear_topics || topics.isSome then
        DBEntry.unlink_all_topics db1 entry_id
      else db1
    let topics_to_add := if topics.isSome then topics else add_topics
    let db3 ←
      match topics_to_add with
      | none => Except.ok db2
      | some t => do
          let (topic_ids, dbt) ← DBTopic.create_many db2 t
          DBEntry.associate_with_topics dbt entry_id topic_ids
    let db4 :=
      match remove_topics with
      | none => db3
      | some names => DBEntry.unlink_topics_by_name db3 entry_id names
    .ok ({ entry with
            topics := (DBTopic.get_related_to db4 entry_id).map (fun p => p.2) },
         db4)

/-- One entry's processing inside `RList::import`: attempt
`DBEntry::create`, then `DBTopic::create_many` on the entry's topics,
then `DBEntry::associate_with_topics`; the Boolean says whether the
whole chain succeeded (only then is the counter bumped), and the state
keeps whatever prefix of the chain did succeed. -/
def importStep (db : DB) (e : Entry) (now : String) : Bool × DB :=
  match DBEntry.create db e.name e.url e.author now with
  | (.error _, db') => (false, db')
  | (.ok (entry_id, _), db') =>
      match DBTopic.create_many db' e.topics with
      | .error _ => (false, db')
      | .ok (topic_ids, db'') =>
          match DBEntry.associate_with_topics db'' entry_id topic_ids with
          | .error _ => (false, db'')
          | .ok db''' => (true, db''')

/-- `RList::import` from `src/rlist.rs`: fold `importStep` over the
input, counting the fully-successful entries; never an error. -/
def importAll (db : DB) (entries : List Entry) (now : String) : Nat × DB :=
  match entries with
  | [] => (0, db)
  | e :: es =>
      let (ok1, db') := importStep db e now
      let (c, db'') := importAll db' es now
      ((if ok1 then 1 else 0) + c, db'')

/-- The per-entry success flags of `RList::import`, in input order:
one Boolean per input entry, threading the same states as `importAll`. -/
def importFlags (db : DB) (entries : List Entry) (now : String) : List Bool :=
  match entries with
  | [] => []
  | e :: es =>
      let (ok1, db') := importStep db e now
      ok1 :: importFlags db' es now

end RList

/-! ## General helper lemmas -/

theorem sub_chain_map {α β : Type} (f : α → β) {l₁ l₂ : List α}
    (h : l₁ <:+: l₂) : l₁.map f <:+: l₂.map f := by
  obtain ⟨s, t, rfl⟩ := h
  exact ⟨s.map f, t.map f, by simp⟩

theorem find_append_last {α : Type} {p : α → Bool} {l : List α} {r : α}
    (h : l.any p = false) (hr : p r = true) : (l ++ [r]).find? p = some r := by
  induction l with
  | nil => simp [List.find?, hr]
  | cons a as ih =>
      simp only [List.any_cons, Bool.or_eq_false_iff] at h
      simpa [List.find?, h.1] using ih h.2

/-! ## C10: the author column's "NULL" string encoding -/

/-- C10: an entry created with `author = None` stores the literal
four-character string "NULL" in the author column; `opt_from_sql` maps
that exact string back to `None` on every read (so an author supplied
as the string "NULL" also reads back as `None`); and the stored row
passes any author substring filter whose pattern is a substring of
"NULL". -/
theorem author_null_storage (db : DB) (n u now p : String)
    (hn : db.entries.any (fun e => e.name == n) = false)
    (hu : db.entries.any (fun e => e.url == u) = false) :
    (DBEntry.create db n u none now).2.entries
        = db.entries ++ [⟨db.nextEntryId, n, u, "NULL", now⟩]
    ∧ optFromSql (optToSql none) = none
    ∧ optFromSql (optToSql (some "NULL")) = none
    ∧ DBEntry.get_by_name_without_topics (DBEntry.create db n u none now).2 n
        = .ok (db.nextEntryId, Entry.new n u none [] (some now))
    ∧ aggregateRows [⟨n, u, "NULL", now, none⟩]
        = [Entry.new n u none [] (some now)]
    ∧ (p.data <:+: "NULL".data →
        rowFilter none (some p) none none none ⟨n, u, "NULL", now, none⟩ = true) := by
  have hcreate : DBEntry.create db n u none now =
      (.ok (db.nextEntryId, Entry.new n u none [] (some now)),
       { db with entries := db.entries ++ [⟨db.nextEntryId, n, u, "NULL", now⟩],
                 nextEntryId := db.nextEntryId + 1 }) := by
    simp [DBEntry.create, hn, hu, optToSql]
  refine ⟨by rw [hcreate], rfl, rfl, ?_, ?_, ?_⟩
  · rw [hcreate]
    have hfind : ((db.entries ++ [(⟨db.nextEntryId, n, u, "NULL", now⟩ : EntryRow)]).find?
        (fun e => e.name == n)) = some ⟨db.nextEntryId, n, u, "NULL", now⟩ := by
      apply find_append_last
      · simpa using hn
      · simp
    simp [DBEntry.get_by_name_without_topics, hfind, optFromSql]
  · simp [aggregateRows, addRow, optFromSql, Entry.new]
  · intro hinf
    have : strLower p <:+: strLower "NULL" := sub_chain_map Char.toLower hinf
    simp [rowFilter, likeMatch, this]

/-- C10 witness: concrete instantiation on the empty store with the
pattern "UL", a substring of "NULL". -/
theorem author_null_storage_witness :
    (DBEntry.create ⟨[], [], [], 1, 1⟩ "foo" "http" none "t").2.entries
        = [⟨1, "foo", "http", "NULL", "t"⟩]
    ∧ rowFilter none (some "UL") none none none ⟨"foo", "http", "NULL", "t", none⟩ = true := by
  have h := author_null_storage ⟨[], [], [], 1, 1⟩ "foo" "http" "t" "UL" rfl rfl
  exact ⟨h.1, h.2.2.2.2.2 (by decide)⟩

/-! ## C8: create's conflict detection and reporting -/

set_option maxRecDepth 4096 in
theorem gccn_name_col :
    get_conflicting_column_name (DBEntry.uniqueErr "name") = some "rlist.name" := by
  decide

theorem gccn_url_col :
    get_conflicting_column_name (DBEntry.uniqueErr "url") = some "rlist.url" := by
  decide

theorem splitOnceDot_rlist_name : splitOnceDot "rlist.name" = some ("rlist", "name") := by
  decide

theorem splitOnceDot_rlist_url : splitOnceDot "rlist.url" = some ("rlist", "url") := by
  decide

theorem createConflictError_name (n : String) :
    DBEntry.createConflictError n (DBEntry.uniqueErr "name")
      = DBEntry.conflictMsgFor n "name" := by
  simp [DBEntry.createConflictError, gccn_name_col, splitOnceDot_rlist_name]

theorem createConflictError_url (n : String) :
    DBEntry.createConflictError n (DBEntry.uniqueErr "url")
      = DBEntry.conflictMsgFor n "url" := by
  simp [DBEntry.createConflictError, gccn_url_col, splitOnceDot_rlist_url]

/-! ## C5: create_many -/

theorem find_prefix_stable {α : Type} (p : α → Bool) (l Δ : List α) (t : α)
    (h : l.find? p = some t) : (l ++ Δ).find? p = some t := by
  induction l with
  | nil => simp [List.find?] at h
  | cons a as ih =>
      rw [List.cons_append]
      by_cases ha : p a
      · rw [List.find?_cons_of_pos _ ha] at h ⊢
        exact h
      · rw [List.find?_cons_of_neg _ (by simpa using ha)] at h ⊢
        exact ih h

theorem createManyGo_topics_extend (ns : List String) (db : DB) :
    ∃ Δ, (DBTopic.createManyGo db ns).2.topics = db.topics ++ Δ := by
  induction ns generalizing db with
  | nil => exact ⟨[], by simp [DBTopic.createManyGo]⟩
  | cons n rest ih =>
      rw [DBTopic.createManyGo]
      cases hfind : db.topics.find? (fun t => t.name == n) with
      | some t => simpa using ih db
      | none =>
          obtain ⟨Δ, hΔ⟩ := ih
            { db with topics := db.topics ++ [⟨db.nextTopicId, n⟩],
                      nextTopicId := db.nextTopicId + 1 }
          exact ⟨⟨db.nextTopicId, n⟩ :: Δ, by simpa using hΔ⟩

theorem createManyGo_find_stable (ns : List String) (db : DB)
    (p : TopicRow → Bool) (t : TopicRow) (h : db.topics.find? p = some t) :
    (DBTopic.createManyGo db ns).2.topics.find? p = some t := by
  obtain ⟨Δ, hΔ⟩ := createManyGo_topics_extend ns db
  rw [hΔ]
  exact find_prefix_stable p db.topics Δ t h

theorem createManyGo_ids_spec (ns : List String) (db : DB) :
    List.Forall₂
      (fun n i =>
        ((DBTopic.createManyGo db ns).2.topics.find? (fun t => t.name == n)).map
            (fun t => t.topic_id) = some i)
      ns (DBTopic.createManyGo db ns).1 := by
  induction ns generalizing db with
  | nil => simp [DBTopic.createManyGo]
  | cons n rest ih =>
      rw [DBTopic.createManyGo]
      cases hfind : db.topics.find? (fun t => t.name == n) with
      | some t =>
          refine List.Forall₂.cons ?_ ?_
          · rw [createManyGo_find_stable rest db _ t hfind]
            rfl
          · exact ih db
      | none =>
          have hany : db.topics.any (fun t => t.name == n) = false := by
            have hall := List.find?_eq_none.mp hfind
            simp only [List.any_eq_false]
            intro t ht
            simpa using hall t ht
          have hfind1 : (db.topics ++ [(⟨db.nextTopicId, n⟩ : TopicRow)]).find?
              (fun t => t.name == n) = some ⟨db.nextTopicId, n⟩ :=
            find_append_last hany (by simp)
          refine List.Forall₂.cons ?_ ?_
          · rw [createManyGo_find_stable rest _ _ _ hfind1]
            rfl
          · exact ih _

/-- C5: for a non-empty name list, `create_many` succeeds and returns
one topic id per input name, in input order: the id returned at each
position is exactly the id the final topic table assigns to that
position's name (so duplicate names in the input receive the same id
several times), and every topic row that existed before the call — in
particular any pre-existing name's row — survives with its old id. -/
theorem create_many_spec (db : DB) (ns : List String) (hne : ns ≠ []) :
    ∃ ids db', DBTopic.create_many db ns = .ok (ids, db')
    ∧ List.Forall₂
        (fun n i =>
          ((db'.topics.find? (fun t => t.name == n)).map (fun t => t.topic_id))
            = some i) ns ids
    ∧ ids.length = ns.length
    ∧ (∀ n t, db.topics.find? (fun t' => t'.name == n) = some t →
        db'.topics.find? (fun t' => t'.name == n) = some t)
    ∧ (∀ i j hi hj, ns.get ⟨i, hi⟩ = ns.get ⟨j, hj⟩ →
        ∀ hi' hj', ids.get ⟨i, hi'⟩ = ids.get ⟨j, hj'⟩) := by
  refine ⟨(DBTopic.createManyGo db ns).1, (DBTopic.createManyGo db ns).2, ?_, ?_, ?_, ?_, ?_⟩
  · rw [DBTopic.create_many, if_neg (by simpa using hne)]
  · exact createManyGo_ids_spec ns db
  · exact (List.Forall₂.length_eq (createManyGo_ids_spec ns db)).symm
  · exact fun n t h => createManyGo_find_stable ns db _ t h
  · intro i j hi hj hname hi' hj'
    have hget := (List.forall₂_iff_get.mp (createManyGo_ids_spec ns db)).2
    have h1 := hget i hi hi'
    have h2 := hget j hj hj'
    rw [hname] at h1
    rw [h1] at h2
    exact (Option.some.injEq _ _).mp h2

/-- C5 witness: creating `["a", "z", "z", "b"]` over a store already
holding topics `a` (id 1) and `b` (id 2) yields ids `[1, 3, 3, 2]` —
one id per input name in input order, the pre-existing names keeping
their old ids and the duplicated fresh name resolving twice to the same
new id. -/
theorem create_many_spec_witness :
    DBTopic.create_many ⟨[], [⟨1, "a"⟩, ⟨2, "b"⟩], [], 1, 3⟩ ["a", "z", "z", "b"]
      = .ok ([1, 3, 3, 2],
          ⟨[], [⟨1, "a"⟩, ⟨2, "b"⟩, ⟨3, "z"⟩], [], 1, 4⟩) := by
  obtain ⟨ids, db', heq, -, -, -, -⟩ :=
    create_many_spec ⟨[], [⟨1, "a"⟩, ⟨2, "b"⟩], [], 1, 3⟩ ["a", "z", "z", "b"]
      (by simp)
  rw [heq]
  have : ids = [1, 3, 3, 2] ∧ db' = ⟨[], [⟨1, "a"⟩, ⟨2, "b"⟩, ⟨3, "z"⟩], [], 1, 4⟩ := by
    have := heq
    rw [DBTopic.create_many, if_neg (by simp)] at this
    simp only [Except.ok.injEq] at this
    exact ⟨(congrArg Prod.fst this).symm, (congrArg Prod.snd this).symm⟩
  rw [this.1, this.2]

/-! ## C9: row-to-entry aggregation -/

theorem map_update_no_match (f : Entry → Entry) (n : String) (acc : List Entry)
    (h : ∀ e ∈ acc, (e.name == n) = false) :
    acc.map (fun e => if e.name == n then f e else e) = acc := by
  induction acc with
  | nil => rfl
  | cons a as ih =>
      rw [List.map_cons, if_neg (by simp [h a (List.mem_cons_self a as)]),
        ih (fun e he => h e (List.mem_cons_of_mem a he))]

theorem appendTopicTo_eq_map (n t : String) (acc : List Entry)
    (hnodup : (acc.map (fun e => e.name)).Nodup) :
    appendTopicTo n t acc
      = acc.map (fun e =>
          if e.name == n then { e with topics := e.topics ++ [t] } else e) := by
  induction acc with
  | nil => rfl
  | cons a as ih =>
      rw [List.map_cons] at hnodup
      rw [appendTopicTo, List.map_cons]
      by_cases ha : (a.name == n) = true
      · rw [if_pos ha, if_pos ha]
        have hnin : ∀ e ∈ as, (e.name == n) = false := by
          intro e he
          have hmem := (List.nodup_cons.mp hnodup).1
          by_contra hcontra
          rw [Bool.not_eq_false, beq_iff_eq] at hcontra
          apply hmem
          rw [beq_iff_eq.mp ha, ← hcontra]
          exact List.mem_map_of_mem _ he
        rw [map_update_no_match _ n as hnin]
      · rw [if_neg ha, if_neg ha, ih (List.nodup_cons.mp hnodup).2]

theorem addRow_inv (consumed : List Row) (acc : List Entry) (r : Row)
    (h : AggInv consumed acc) : AggInv (consumed ++ [r]) (addRow acc r) := by
  obtain ⟨hnodup, hpres, htop⟩ := h
  by_cases hany : (acc.any (fun e => e.name == r.name)) = true
  · have hexists : ∃ e ∈ acc, e.name = r.name := by
      rcases List.any_eq_true.mp hany with ⟨e, he, hp⟩
      exact ⟨e, he, beq_iff_eq.mp hp⟩
    have hpres' : ∀ n, (∃ e ∈ acc, e.name = n) ↔ ∃ r' ∈ consumed ++ [r], r'.name = n := by
      intro n
      rw [hpres n]
      constructor
      · rintro ⟨r', hr', hn⟩
        exact ⟨r', List.mem_append_left _ hr', hn⟩
      · rintro ⟨r', hr', hn⟩
        rcases List.mem_append.mp hr' with hr'c | hr'r
        · exact ⟨r', hr'c, hn⟩
        · rcases List.mem_singleton.mp hr'r with rfl
          subst hn
          exact (hpres r'.name).mp hexists
    cases hr : r.topic with
    | none =>
        have haddRow : addRow acc r = acc := by
          rw [addRow, if_pos hany, hr]
        rw [haddRow]
        refine ⟨hnodup, hpres', ?_⟩
        intro e he
        rw [List.filter_append, List.filterMap_append, htop e he]
        by_cases hname : (r.name == e.name) = true
        · simp [hname, hr]
        · simp [hname]
    | some t =>
        have haddRow : addRow acc r = acc.map (fun e =>
            if e.name == r.name then { e with topics := e.topics ++ [t] } else e) := by
          rw [addRow, if_pos hany, hr]
          exact appendTopicTo_eq_map r.name t acc hnodup
        have hupd : ∀ e : Entry,
            ((if e.name == r.name then { e with topics := e.topics ++ [t] } else e) : Entry).name
              = e.name := by
          intro e
          split <;> rfl
        have hnames : (acc.map (fun e =>
            if e.name == r.name then { e with topics := e.topics ++ [t] } else e)).map
              (fun e => e.name) = acc.map (fun e => e.name) := by
          rw [List.map_map]
          apply List.map_congr_left
          intro e _
          exact hupd e
        rw [haddRow]
        refine ⟨by rw [hnames]; exact hnodup, ?_, ?_⟩
        · intro n
          rw [← hpres' n]
          constructor
          · rintro ⟨e', he', hn⟩
            rcases List.mem_map.mp he' with ⟨e, he, rfl⟩
            exact ⟨e, he, by rw [← hupd e]; exact hn⟩
          · rintro ⟨e, he, hn⟩
            exact ⟨_, List.mem_map_of_mem _ he, by rw [hupd e]; exact hn⟩
        · intro e' he'
          rcases List.mem_map.mp he' with ⟨e, he, rfl⟩
          by_cases hc : (e.name == r.name) = true
          · have hname' : r.name == ({ e with topics := e.topics ++ [t] } : Entry).name := by
              simpa [BEq.comm] using hc
            rw [if_pos hc]
            show e.topics ++ [t] = _
            rw [List.filter_append, List.filterMap_append, htop e he]
            simp [hname', hr, beq_iff_eq.mp hc]
          · have hname' : (r.name == e.name) = false := by
              rw [Bool.eq_false_iff]
              intro hcontra
              rw [beq_iff_eq] at hcontra
              rw [hcontra] at hc
              simp at hc
            rw [if_neg hc]
            show e.topics = _
            rw [List.filter_append, List.filterMap_append, htop e he]
            simp [hname']
  · have hnew : r.name ∉ acc.map (fun e => e.name) := by
      intro hmem
      rcases List.mem_map.mp hmem with ⟨e, he, hn⟩
      exact hany (List.any_eq_true.mpr ⟨e, he, by simp [hn]⟩)
    have hnoc : ∀ r' ∈ consumed, (r'.name == r.name) = false := by
      intro r' hr'
      rw [Bool.eq_false_iff]
      intro hcontra
      rw [beq_iff_eq] at hcontra
      have : ∃ e ∈ acc, e.name = r.name := (hpres r.name).mpr ⟨r', hr', hcontra⟩
      rcases this with ⟨e, he, hn⟩
      exact hnew (hn ▸ List.mem_map_of_mem _ he)
    have haddRow : addRow acc r = acc ++
        [Entry.new r.name r.url (optFromSql r.author)
          (match r.topic with | some t => [t] | none => []) (some r.added)] := by
      rw [addRow, if_neg hany]
    rw [haddRow]
    refine ⟨?_, ?_, ?_⟩
    · rw [List.map_append]
      simp only [List.map_cons, List.map_nil]
      rw [List.nodup_append]
      exact ⟨hnodup, List.nodup_singleton _, by
        intro a ha hb
        rcases List.mem_singleton.mp hb with rfl
        exact hnew ha⟩
    · intro n
      constructor
      · rintro ⟨e, he, hn⟩
        rcases List.mem_append.mp he with hacc | hsing
        · rcases (hpres n).mp ⟨e, hacc, hn⟩ with ⟨r', hr', hn'⟩
          exact ⟨r', List.mem_append_left _ hr', hn'⟩
        · rcases List.mem_singleton.mp hsing with rfl
          exact ⟨r, List.mem_append_right _ (List.mem_singleton_self r), hn⟩
      · rintro ⟨r', hr', hn⟩
        rcases List.mem_append.mp hr' with hrc | hrr
        · rcases (hpres n).mpr ⟨r', hrc, hn⟩ with ⟨e, he, hn'⟩
          exact ⟨e, List.mem_append_left _ he, hn'⟩
        · rcases List.mem_singleton.mp hrr with rfl
          exact ⟨_, List.mem_append_right _ (List.mem_singleton_self _), hn⟩
    · intro e he
      rcases List.mem_append.mp he with hacc | hsing
      · have hne : (r.name == e.name) = false := by
          rw [Bool.eq_false_iff]
          intro hcontra
          rw [beq_iff_eq] at hcontra
          exact hnew (hcontra ▸ List.mem_map_of_mem _ hacc)
        rw [List.filter_append, List.filterMap_append, htop e hacc]
        simp [hne]
      · rcases List.mem_singleton.mp hsing with rfl
        have hfilter : consumed.filter
            (fun r' => r'.name == (Entry.new r.name r.url (optFromSql r.author)
              (match r.topic with | some t => [t] | none => []) (some r.added)).name) = [] := by
          rw [List.filter_eq_nil_iff]
          intro r' hr'
          simpa using hnoc r' hr'
        rw [List.filter_append, List.filterMap_append, hfilter]
        show (match r.topic with | some t => [t] | none => []) = _
        cases hr : r.topic with
        | none => simp [Entry.new, hr]
        | some t => simp [Entry.new, hr]

theorem foldl_addRow_inv (rows : List Row) (consumed : List Row) (acc : List Entry)
    (h : AggInv consumed acc) : AggInv (consumed ++ rows) (rows.foldl addRow acc) := by
  induction rows generalizing consumed acc with
  | nil => simpa using h
  | cons r rows ih =>
      rw [List.foldl_cons]
      have := ih (consumed ++ [r]) (addRow acc r) (addRow_inv consumed acc r h)
      simpa using this

theorem aggregateRows_inv (rows : List Row) : AggInv rows (aggregateRows rows) := by
  have h0 : AggInv [] [] := ⟨List.nodup_nil, by simp, by simp⟩
  simpa using foldl_addRow_inv rows [] [] h0

theorem aggregateRows_names_nodup (rows : List Row) :
    ((aggregateRows rows).map (fun e => e.name)).Nodup :=
  (aggregateRows_inv rows).1

theorem filter_names_nodup (res : List Entry) (p : Entry → Bool)
    (h : (res.map (fun e => e.name)).Nodup) :
    ((res.filter p).map (fun e => e.name)).Nodup :=
  List.Nodup.sublist (List.Sublist.map _ (List.filter_sublist res)) h

/-- C9: the row-to-entry aggregation used by both `query` and
`getAllComplete` never produces two records with the same entry name;
each record's topic list is exactly the non-null topic values of the
join rows bearing its name; every joined entry name appears in the
result; an entry all of whose join rows carry a null topic gets exactly
one record with an empty topic list; and every `query` result likewise
has pairwise-distinct entry names. -/
theorem aggregation_spec (db : DB) :
    ((DBEntry.get_all_complete db).map (fun e => e.name)).Nodup
    ∧ (∀ e ∈ DBEntry.get_all_complete db,
        e.topics = ((joinRows db).filter (fun r => r.name == e.name)).filterMap
          (fun r => r.topic))
    ∧ (∀ n, (∃ r ∈ joinRows db, r.name = n)
        ↔ ∃ e ∈ DBEntry.get_all_complete db, e.name = n)
    ∧ (∀ e ∈ DBEntry.get_all_complete db,
        (∀ r ∈ joinRows db, r.name = e.name → r.topic = none) → e.topics = [])
    ∧ (∀ q ts a u sb d f t o,
        ((RList.query db q ts a u sb d f t o).map (fun e => e.name)).Nodup) := by
  obtain ⟨h1, h2, h3⟩ := aggregateRows_inv (joinRows db)
  refine ⟨h1, h3, fun n => (h2 n).symm, ?_, ?_⟩
  · intro e he hnone
    rw [h3 e he, List.filterMap_eq_nil_iff]
    intro r hr
    have hm := List.mem_filter.mp hr
    exact hnone r hm.1 (beq_iff_eq.mp hm.2)
  · intro q ts a u sb d f t o
    cases ts with
    | none =>
        cases sb with
        | none => exact aggregateRows_names_nodup _
        | some c => exact aggregateRows_names_nodup _
    | some l =>
        cases sb with
        | none => exact filter_names_nodup _ _ (aggregateRows_names_nodup _)
        | some c => exact filter_names_nodup _ _ (aggregateRows_names_nodup _)

/-! ## C1: topic filtering semantics of query -/

theorem interLen_eq_card (topics ts : List String) :
    ((topics.dedup).filter (fun x => ts.contains x)).length
      = (topics.toFinset ∩ ts.toFinset).card := by
  have hnodup : ((topics.dedup).filter (fun x => ts.contains x)).Nodup :=
    (List.nodup_dedup topics).filter _
  rw [← List.toFinset_card_of_nodup hnodup]
  congr 1
  ext x
  simp [List.mem_filter, List.mem_dedup]

theorem topicFilter_and_iff (ts : List String) (e : Entry) :
    topicFilter false ts e = true ↔ ∀ x ∈ ts, x ∈ e.topics := by
  rw [topicFilter]
  simp only [Bool.false_eq_true, if_false, beq_iff_eq]
  rw [interLen_eq_card, ← List.card_toFinset]
  constructor
  · intro h
    have hsub : ts.toFinset ⊆ e.topics.toFinset := by
      have hsub1 : e.topics.toFinset ∩ ts.toFinset ⊆ ts.toFinset := Finset.inter_subset_right
      have heq := Finset.eq_of_subset_of_card_le hsub1 (le_of_eq h.symm)
      rw [← heq]
      exact Finset.inter_subset_left
    intro x hx
    exact List.mem_toFinset.mp (hsub (List.mem_toFinset.mpr hx))
  · intro h
    have hsub : ts.toFinset ⊆ e.topics.toFinset :=
      fun x hx => List.mem_toFinset.mpr (h x (List.mem_toFinset.mp hx))
    rw [Finset.inter_eq_right.mpr hsub]

theorem topicFilter_or_iff (ts : List String) (e : Entry) :
    topicFilter true ts e = true ↔ ∃ x ∈ ts, x ∈ e.topics := by
  rw [topicFilter]
  simp only [if_true, decide_eq_true_eq]
  rw [List.length_pos_iff_exists_mem]
  constructor
  · rintro ⟨x, hx⟩
    have hm := List.mem_filter.mp hx
    have h1 : x ∈ e.topics := List.mem_dedup.mp hm.1
    have h2 : x ∈ ts := by simpa using hm.2
    exact ⟨x, h2, h1⟩
  · rintro ⟨x, hxts, hxtop⟩
    exact ⟨x, List.mem_filter.mpr ⟨List.mem_dedup.mpr hxtop, by simpa using hxts⟩⟩

/-- C1: with a non-empty topic list, `query` returns exactly the
entries of the corresponding unfiltered query that pass the topic
post-filter; that filter keeps an entry iff, in OR mode, some requested
topic is among the entry's topics and, in default (AND) mode, every
requested topic is among the entry's topics; with no topic list the
post-filter step is skipped entirely. -/
theorem query_topic_filter_semantics (db : DB) (q a u f t : Option String)
    (sb : Option OrderBy) (d o : Bool) (ts : List String) (_hne : ts ≠ []) :
    RList.query db q (some ts) a u sb d f t o
      = (RList.query db q none a u sb d f t o).filter (topicFilter o ts)
    ∧ (∀ e : Entry, topicFilter true ts e = true ↔ ∃ x ∈ ts, x ∈ e.topics)
    ∧ (∀ e : Entry, topicFilter false ts e = true ↔ ∀ x ∈ ts, x ∈ e.topics) := by
  refine ⟨rfl, fun e => topicFilter_or_iff ts e, fun e => topicFilter_and_iff ts e⟩

/-- C1 witness: an entry with topics `a`, `b` passes the AND filter for
`[a]` and the OR filter for `[a, zz]`, fails the AND filter for
`[a, zz]`, and the concrete filtered query equals the unfiltered query
post-filtered. -/
theorem query_topic_filter_semantics_witness :
    topicFilter false ["a", "zz"] (⟨"e", "u", none, ["a", "b"], "t"⟩ : Entry) = false
    ∧ topicFilter true ["a", "zz"] (⟨"e", "u", none, ["a", "b"], "t"⟩ : Entry) = true
    ∧ RList.query ⟨[⟨1, "e", "u", "NULL", "t"⟩], [⟨1, "a"⟩, ⟨2, "b"⟩], [⟨1, 1⟩, ⟨1, 2⟩], 2, 3⟩
        none (some ["a", "b"]) none none none false none none false
      = (RList.query ⟨[⟨1, "e", "u", "NULL", "t"⟩], [⟨1, "a"⟩, ⟨2, "b"⟩], [⟨1, 1⟩, ⟨1, 2⟩], 2, 3⟩
          none none none none none false none none false).filter
          (topicFilter false ["a", "b"]) := by
  refine ⟨?_, ?_, ?_⟩
  · have h := (query_topic_filter_semantics
      ⟨[⟨1, "e", "u", "NULL", "t"⟩], [⟨1, "a"⟩, ⟨2, "b"⟩], [⟨1, 1⟩, ⟨1, 2⟩], 2, 3⟩
      none none none none none none false false ["a", "zz"] (by simp)).2.2
      (⟨"e", "u", none, ["a", "b"], "t"⟩ : Entry)
    rw [Bool.eq_false_iff]
    intro hc
    have := h.mp hc
    have hzz : ("zz" : String) ∈ (["a", "b"] : List String) := this "zz" (by simp)
    simp at hzz
  · exact ((query_topic_filter_semantics
      ⟨[⟨1, "e", "u", "NULL", "t"⟩], [⟨1, "a"⟩, ⟨2, "b"⟩], [⟨1, 1⟩, ⟨1, 2⟩], 2, 3⟩
      none none none none none none false true ["a", "zz"] (by simp)).2.1
      (⟨"e", "u", none, ["a", "b"], "t"⟩ : Entry)).mpr ⟨"a", by simp, by simp⟩
  · exact (query_topic_filter_semantics
      ⟨[⟨1, "e", "u", "NULL", "t"⟩], [⟨1, "a"⟩, ⟨2, "b"⟩], [⟨1, 1⟩, ⟨1, 2⟩], 2, 3⟩
      none none none none none none false false ["a", "b"] (by simp)).1

/-! ## C2: edit topic precedence -/

/-- C2: for an entry currently linked to topics `a` and `b` (with the
three topic names pairwise distinct), `edit(topics=[c])` leaves topic
set exactly `[c]`; `edit(addTopics=[c])` leaves `[a, b, c]`;
`edit(removeTopics=[a])` leaves `[b]`; supplying both `topics=[c]` and
`addTopics=[b]` still leaves exactly `[c]` (topics wins, addTopics is
ignored); and `removeTopics` is applied after the other topic
operations: `edit(topics=[c], removeTopics=[c])` leaves `[]`. -/
theorem edit_topic_precedence (ename eurl eadded a b c : String)
    (hac : (a == c) = false) (hbc : (b == c) = false) (hba : (b == a) = false) :
    (RList.edit ⟨[⟨1, ename, eurl, "NULL", eadded⟩], [⟨1, a⟩, ⟨2, b⟩], [⟨1, 1⟩, ⟨1, 2⟩], 2, 3⟩
        ename none none none (some [c]) none false none).map (fun p => p.1.topics)
      = .ok [c]
    ∧ (RList.edit ⟨[⟨1, ename, eurl, "NULL", eadded⟩], [⟨1, a⟩, ⟨2, b⟩], [⟨1, 1⟩, ⟨1, 2⟩], 2, 3⟩
        ename none none none none (some [c]) false none).map (fun p => p.1.topics)
      = .ok [a, b, c]
    ∧ (RList.edit ⟨[⟨1, ename, eurl, "NULL", eadded⟩], [⟨1, a⟩, ⟨2, b⟩], [⟨1, 1⟩, ⟨1, 2⟩], 2, 3⟩
        ename none none none none none false (some [a])).map (fun p => p.1.topics)
      = .ok [b]
    ∧ (RList.edit ⟨[⟨1, ename, eurl, "NULL", eadded⟩], [⟨1, a⟩, ⟨2, b⟩], [⟨1, 1⟩, ⟨1, 2⟩], 2, 3⟩
        ename none none none (some [c]) (some [b]) false none).map (fun p => p.1.topics)
      = .ok [c]
    ∧ (RList.edit ⟨[⟨1, ename, eurl, "NULL", eadded⟩], [⟨1, a⟩, ⟨2, b⟩], [⟨1, 1⟩, ⟨1, 2⟩], 2, 3⟩
        ename none none none (some [c]) none false (some [c])).map (fun p => p.1.topics)
      = .ok [] := by
  have hca : (c == a) = false := by
    rw [Bool.eq_false_iff] at hac ⊢
    intro hcontra
    exact hac (by rw [beq_iff_eq] at hcontra ⊢; exact hcontra.symm)
  have hab : (a == b) = false := by
    rw [Bool.eq_false_iff] at hba ⊢
    intro hcontra
    exact hba (by rw [beq_iff_eq] at hcontra ⊢; exact hcontra.symm)
  have hacd : decide (a = c) = false := by
    rw [decide_eq_false_iff_not]
    rw [Bool.eq_false_iff] at hac
    exact fun h => hac (beq_iff_eq.mpr h)
  have hbcd : decide (b = c) = false := by
    rw [decide_eq_false_iff_not]
    rw [Bool.eq_false_iff] at hbc
    exact fun h => hbc (beq_iff_eq.mpr h)
  have hbad : decide (b = a) = false := by
    rw [decide_eq_false_iff_not]
    rw [Bool.eq_false_iff] at hba
    exact fun h => hba (beq_iff_eq.mpr h)
  have hcad : decide (c = a) = false := by
    rw [decide_eq_false_iff_not]
    rw [Bool.eq_false_iff] at hca
    exact fun h => hca (beq_iff_eq.mpr h)
  have habd : decide (a = b) = false := by
    rw [decide_eq_false_iff_not]
    rw [Bool.eq_false_iff] at hab
    exact fun h => hab (beq_iff_eq.mpr h)
  refine ⟨?_, ?_, ?_, ?_, ?_⟩ <;>
    simp [RList.edit, DBEntry.get_by_name_without_topics, DBEntry.unlink_all_topics,
      DBTopic.create_many, DBTopic.createManyGo, DBEntry.associate_with_topics,
      DBEntry.assocStep, DBEntry.unlink_topics_by_name, DBTopic.get_related_to,
      hac, hbc, hba, hca, hab, hacd, hbcd, hbad, hcad, habd, Entry.new, optFromSql,
      List.find?, List.filter, List.filterMap, Except.instMonad, Except.bind,
      Except.map, Except.pure, bind, pure]

/-- C2 witness: the five edit scenarios on the concrete topic names
"a", "b", "c". -/
theorem edit_topic_precedence_witness :
    (RList.edit ⟨[⟨1, "e", "u", "NULL", "t"⟩], [⟨1, "a"⟩, ⟨2, "b"⟩], [⟨1, 1⟩, ⟨1, 2⟩], 2, 3⟩
        "e" none none none (some ["c"]) none false none).map (fun p => p.1.topics)
      = .ok ["c"]
    ∧ (RList.edit ⟨[⟨1, "e", "u", "NULL", "t"⟩], [⟨1, "a"⟩, ⟨2, "b"⟩], [⟨1, 1⟩, ⟨1, 2⟩], 2, 3⟩
        "e" none none none none (some ["c"]) false none).map (fun p => p.1.topics)
      = .ok ["a", "b", "c"]
    ∧ (RList.edit ⟨[⟨1, "e", "u", "NULL", "t"⟩], [⟨1, "a"⟩, ⟨2, "b"⟩], [⟨1, 1⟩, ⟨1, 2⟩], 2, 3⟩
        "e" none none none none none false (some ["a"])).map (fun p => p.1.topics)
      = .ok ["b"] := by
  obtain ⟨h1, h2, h3, -, -⟩ :=
    edit_topic_precedence "e" "u" "t" "a" "b" "c" (by decide) (by decide) (by decide)
  exact ⟨h1, h2, h3⟩

/-! ## C3: remove-by-topics accumulation -/

/-- C3 counterexample: in a store whose single entry is linked to both
requested topics, `remove_by_topics` returns that entry once — not
twice: the entry is deleted while the first topic is processed, so the
second topic's query no longer sees it. -/
theorem remove_by_topics_twice_counterexample :
    (RList.remove_by_topics ⟨[⟨1, "e", "u", "NULL", "t"⟩], [⟨1, "a"⟩, ⟨2, "b"⟩],
        [⟨1, 1⟩, ⟨1, 2⟩], 2, 3⟩ ["a", "b"]).map (fun p => p.1)
      = .ok [⟨"e", "u", none, ["a", "b"], "t"⟩]
    ∧ (RList.remove_by_topics ⟨[⟨1, "e", "u", "NULL", "t"⟩], [⟨1, "a"⟩, ⟨2, "b"⟩],
        [⟨1, 1⟩, ⟨1, 2⟩], 2, 3⟩ ["a", "b"]).map
        (fun p => p.1.count (⟨"e", "u", none, ["a", "b"], "t"⟩ : Entry))
      ≠ .ok 2 := by
  constructor
  · rfl
  · intro h
    rw [show (RList.remove_by_topics ⟨[⟨1, "e", "u", "NULL", "t"⟩], [⟨1, "a"⟩, ⟨2, "b"⟩],
        [⟨1, 1⟩, ⟨1, 2⟩], 2, 3⟩ ["a", "b"]).map
        (fun p => p.1.count (⟨"e", "u", none, ["a", "b"], "t"⟩ : Entry))
        = Except.ok 1 from rfl] at h
    simp at h

/-- C3 (amended): for a store whose single entry is linked to exactly
the two distinct requested topics, `remove_by_topics` succeeds and the
accumulated deletion list contains the entry exactly once (it is
removed while the first requested topic is processed, so the second
topic contributes nothing), leaving the entry table empty. -/
theorem remove_by_topics_entry_once (ename eurl eadded a b : String)
    (hba : (b == a) = false) :
    (RList.remove_by_topics ⟨[⟨1, ename, eurl, "NULL", eadded⟩], [⟨1, a⟩, ⟨2, b⟩],
        [⟨1, 1⟩, ⟨1, 2⟩], 2, 3⟩ [a, b]).map (fun p => p.1)
      = .ok [⟨ename, eurl, none, [a, b], eadded⟩]
    ∧ (RList.remove_by_topics ⟨[⟨1, ename, eurl, "NULL", eadded⟩], [⟨1, a⟩, ⟨2, b⟩],
        [⟨1, 1⟩, ⟨1, 2⟩], 2, 3⟩ [a, b]).map (fun p => p.2.entries)
      = .ok [] := by
  have hab : (a == b) = false := by
    rw [Bool.eq_false_iff] at hba ⊢
    intro hcontra
    exact hba (by rw [beq_iff_eq] at hcontra ⊢; exact hcontra.symm)
  have hbad : decide (b = a) = false := by
    rw [decide_eq_false_iff_not]
    rw [Bool.eq_false_iff] at hba
    exact fun h => hba (beq_iff_eq.mpr h)
  have habd : decide (a = b) = false := by
    rw [decide_eq_false_iff_not]
    rw [Bool.eq_false_iff] at hab
    exact fun h => hab (beq_iff_eq.mpr h)
  have hnab : ¬ a = b := of_decide_eq_false habd
  have hdedup2 : ([a, b] : List String).dedup = [a, b] := by
    rw [List.dedup_cons_of_not_mem (by simp [hnab])]
    rfl
  have hdedup1 : ([a] : List String).dedup = [a] := rfl
  constructor <;>
    simp [RList.remove_by_topics, RList.remove_by_topic, DBTopic.get_id_from_name,
      RList.query, joinRows, entryRows, rowFilter, aggregateRows, addRow, appendTopicTo,
      topicFilter, DBEntry.remove_related_to, Entry.new, optFromSql, List.find?,
      List.filter, List.filterMap, hdedup2, hdedup1, hba, hab, hbad, habd,
      Except.instMonad, Except.bind, Except.map, Except.pure, bind, pure]

/-- C3 witness: the amended statement at the concrete topic names
"a" and "b". -/
theorem remove_by_topics_entry_once_witness :
    (RList.remove_by_topics ⟨[⟨1, "e2", "u2", "NULL", "t2"⟩], [⟨1, "a"⟩, ⟨2, "b"⟩],
        [⟨1, 1⟩, ⟨1, 2⟩], 2, 3⟩ ["a", "b"]).map (fun p => p.1)
      = .ok [⟨"e2", "u2", none, ["a", "b"], "t2"⟩]
    ∧ (RList.remove_by_topics ⟨[⟨1, "e2", "u2", "NULL", "t2"⟩], [⟨1, "a"⟩, ⟨2, "b"⟩],
        [⟨1, 1⟩, ⟨1, 2⟩], 2, 3⟩ ["a", "b"]).map (fun p => p.2.entries)
      = .ok [] :=
  remove_by_topics_entry_once "e2" "u2" "t2" "a" "b" (by decide)

/-! ## C7: import -/

/-- C7: `import` processes every input entry independently: the
returned count equals the number of entries whose whole
create-plus-topic-association chain succeeded (one success flag per
input entry), an entry whose step fails contributes nothing and does
not abort the batch (the remaining entries are imported from the state
the failed step left behind), and an entry whose name collides with an
existing row is skipped with the store unchanged. -/
theorem import_count_spec (db : DB) (es : List Entry) (e : Entry) (now : String) :
    (RList.importAll db es now).1 = (RList.importFlags db es now).count true
    ∧ (RList.importFlags db es now).length = es.length
    ∧ ((RList.importStep db e now).1 = false →
        RList.importAll db (e :: es) now
          = RList.importAll (RList.importStep db e now).2 es now)
    ∧ (db.entries.any (fun r => r.name == e.name) = true →
        RList.importStep db e now = (false, db)) := by
  refine ⟨?_, ?_, ?_, ?_⟩
  · induction es generalizing db with
    | nil => rfl
    | cons x xs ih =>
        rw [RList.importAll, RList.importFlags]
        rcases hs : RList.importStep db x now with ⟨b, db2⟩
        cases b with
        | true => simp [List.count_cons, ih db2, Nat.add_comm]
        | false => simp [List.count_cons, ih db2]
  · induction es generalizing db with
    | nil => rfl
    | cons x xs ih =>
        rw [RList.importFlags]
        rcases hs : RList.importStep db x now with ⟨b, db2⟩
        simp [ih db2]
  · intro h
    rcases hs : RList.importStep db e now with ⟨b, db2⟩
    rw [hs] at h
    simp only at h
    subst h
    rw [RList.importAll, hs]
    simp
  · intro h
    rw [RList.importStep, DBEntry.create]
    simp [h]

/-- C7 witness: importing two entries into a store already holding the
first one's name: the colliding entry is skipped with the store
untouched, the second is imported, and the count matches the success
flags. -/
theorem import_count_spec_witness :
    (RList.importAll ⟨[⟨1, "e", "u", "NULL", "t"⟩], [], [], 2, 1⟩
        [⟨"e", "v", none, ["a"], ""⟩, ⟨"f", "w", none, ["a"], ""⟩] "T").1
      = (RList.importFlags ⟨[⟨1, "e", "u", "NULL", "t"⟩], [], [], 2, 1⟩
          [⟨"e", "v", none, ["a"], ""⟩, ⟨"f", "w", none, ["a"], ""⟩] "T").count true
    ∧ RList.importStep ⟨[⟨1, "e", "u", "NULL", "t"⟩], [], [], 2, 1⟩
        ⟨"e", "v", none, ["a"], ""⟩ "T"
      = (false, ⟨[⟨1, "e", "u", "NULL", "t"⟩], [], [], 2, 1⟩) :=
  ⟨(import_count_spec ⟨[⟨1, "e", "u", "NULL", "t"⟩], [], [], 2, 1⟩
      [⟨"e", "v", none, ["a"], ""⟩, ⟨"f", "w", none, ["a"], ""⟩]
      ⟨"e", "v", none, ["a"], ""⟩ "T").1,
   (import_count_spec ⟨[⟨1, "e", "u", "NULL", "t"⟩], [], [], 2, 1⟩
      [] ⟨"e", "v", none, ["a"], ""⟩ "T").2.2.2 (by decide)⟩

/-- C9 witness: the aggregation equations at a concrete two-topic store
and at a concrete zero-topic store. -/
theorem aggregation_spec_witness :
    (⟨"e", "u", none, ["a", "b"], "t"⟩ : Entry).topics
      = ((joinRows ⟨[⟨1, "e", "u", "NULL", "t"⟩], [⟨1, "a"⟩, ⟨2, "b"⟩],
            [⟨1, 1⟩, ⟨1, 2⟩], 2, 3⟩).filter
          (fun r => r.name == (⟨"e", "u", none, ["a", "b"], "t"⟩ : Entry).name)).filterMap
          (fun r => r.topic)
    ∧ (⟨"f", "v", none, [], "s"⟩ : Entry).topics = [] :=
  ⟨(aggregation_spec ⟨[⟨1, "e", "u", "NULL", "t"⟩], [⟨1, "a"⟩, ⟨2, "b"⟩],
      [⟨1, 1⟩, ⟨1, 2⟩], 2, 3⟩).2.1 _ (by decide),
   (aggregation_spec ⟨[⟨1, "f", "v", "NULL", "s"⟩], [], [], 2, 1⟩).2.2.2.1 _
      (by decide) (by decide)⟩

/-- C8: creating an entry whose name collides with an existing entry
fails with the conflict message naming the `name` column, a url
collision fails with the message naming the `url` column (both messages
derived from the raw SQLite UNIQUE-violation error through
`get_conflicting_column_name`), and each failure leaves the store
unchanged; a collision-free create appends the new row and returns its
assigned id and timestamp. -/
theorem create_conflict_spec (db : DB) (n u : String) (au : Option String)
    (now : String) :
    (db.entries.any (fun e => e.name == n) = true →
      DBEntry.create db n u au now = (.error (DBEntry.conflictMsgFor n "name"), db))
    ∧ (db.entries.any (fun e => e.name == n) = false →
       db.entries.any (fun e => e.url == u) = true →
       DBEntry.create db n u au now = (.error (DBEntry.conflictMsgFor n "url"), db))
    ∧ (db.entries.any (fun e => e.name == n) = false →
       db.entries.any (fun e => e.url == u) = false →
       DBEntry.create db n u au now =
         (.ok (db.nextEntryId, Entry.new n u au [] (some now)),
          { db with entries := db.entries ++ [⟨db.nextEntryId, n, u, optToSql au, now⟩],
                    nextEntryId := db.nextEntryId + 1 }))
    ∧ DBEntry.createConflictError n (DBEntry.uniqueErr "name")
        = DBEntry.conflictMsgFor n "name"
    ∧ DBEntry.createConflictError n (DBEntry.uniqueErr "url")
        = DBEntry.conflictMsgFor n "url" := by
  refine ⟨?_, ?_, ?_, createConflictError_name n, createConflictError_url n⟩
  · intro h
    simp [DBEntry.create, h, createConflictError_name]
  · intro h1 h2
    simp [DBEntry.create, h1, h2, createConflictError_url]
  · intro h1 h2
    simp [DBEntry.create, h1, h2]

/-! ## C6: remove-by-name -/

/-- C6: `removeByName` fails (with the not-found message) exactly when
no entry with the given name exists; otherwise it returns the entry
rebuilt from the deleted row together with the topic names fetched from
the pre-deletion link table, and the row and its link rows are gone
from the resulting state. -/
theorem remove_by_name_spec (db : DB) (n : String) :
    ((∃ m, RList.remove_by_name db n = .error m) ↔ ∀ e ∈ db.entries, e.name ≠ n)
    ∧ (∀ row, db.entries.find? (fun e => e.name == n) = some row →
        RList.remove_by_name db n =
          .ok (Entry.new row.name row.url (optFromSql row.author)
                 ((DBTopic.get_related_to db row.entry_id).map (fun p => p.2))
                 (some row.added),
               { db with
                 entries := db.entries.filter (fun e => !(e.name == n)),
                 links := db.links.filter (fun l => !(l.entry_id == row.entry_id)) })) := by
  constructor
  · constructor
    · rintro ⟨m, hm⟩ e he hname
      have hfind : (db.entries.find? (fun e => e.name == n)).isSome := by
        rw [List.find?_isSome]
        exact ⟨e, he, by simpa using hname⟩
      rcases Option.isSome_iff_exists.mp hfind with ⟨row, hrow⟩
      rw [RList.remove_by_name, DBEntry.remove_by_name, hrow] at hm
      simp at hm
    · intro h
      have hfind : db.entries.find? (fun e => e.name == n) = none := by
        rw [List.find?_eq_none]
        intro e he
        simpa using h e he
      refine ⟨"Could not find any entry with name " ++ n ++ " in your reading list", ?_⟩
      rw [RList.remove_by_name, DBEntry.remove_by_name, hfind]
  · intro row hrow
    rw [RList.remove_by_name, DBEntry.remove_by_name, hrow]

/-- C6 witness: a store with one entry linked to two topics; removing
it by name returns it with both topic names and clears its link rows,
and removing a missing name fails. -/
theorem remove_by_name_spec_witness :
    RList.remove_by_name
        ⟨[⟨1, "e", "u", "NULL", "t"⟩], [⟨1, "a"⟩, ⟨2, "b"⟩], [⟨1, 1⟩, ⟨1, 2⟩], 2, 3⟩ "e"
      = .ok (Entry.new "e" "u" none ["a", "b"] (some "t"),
             ⟨[], [⟨1, "a"⟩, ⟨2, "b"⟩], [], 2, 3⟩)
    ∧ (∃ m, RList.remove_by_name
        ⟨[⟨1, "e", "u", "NULL", "t"⟩], [⟨1, "a"⟩, ⟨2, "b"⟩], [⟨1, 1⟩, ⟨1, 2⟩], 2, 3⟩ "zz"
        = .error m) := by
  constructor
  · exact (remove_by_name_spec
      ⟨[⟨1, "e", "u", "NULL", "t"⟩], [⟨1, "a"⟩, ⟨2, "b"⟩], [⟨1, 1⟩, ⟨1, 2⟩], 2, 3⟩ "e").2
      ⟨1, "e", "u", "NULL", "t"⟩ (by decide)
  · exact ((remove_by_name_spec
      ⟨[⟨1, "e", "u", "NULL", "t"⟩], [⟨1, "a"⟩, ⟨2, "b"⟩], [⟨1, 1⟩, ⟨1, 2⟩], 2, 3⟩ "zz").1).mpr
      (by decide)

/-! ## C4: link-table mutations -/

theorem associate_links_eq_fold (db : DB) (entry_id : Nat) (tids : List Nat)
    (db' : DB) (h : DBEntry.associate_with_topics db entry_id tids = .ok db') :
    db' = { db with links := tids.foldl (DBEntry.assocStep entry_id) db.links } := by
  rw [DBEntry.associate_with_topics] at h
  split at h
  · exact absurd h (by simp)
  · split at h
    · exact absurd h (by simp)
    · split at h
      · exact absurd h (by simp)
      · simp only [Except.ok.injEq] at h
        rw [← h]

theorem link_any_iff_mem (ls : List LinkRow) (eid tid : Nat) :
    (ls.any (fun l => l.entry_id == eid && l.topic_id == tid) = true)
      ↔ (⟨eid, tid⟩ : LinkRow) ∈ ls := by
  rw [List.any_eq_true]
  constructor
  · rintro ⟨l, hl, hp⟩
    simp only [Bool.and_eq_true, beq_iff_eq] at hp
    obtain ⟨h1, h2⟩ := hp
    cases l
    simp_all
  · intro h
    exact ⟨⟨eid, tid⟩, h, by simp⟩

theorem mem_assocStep_foldl (eid : Nat) (tids : List Nat) (ls : List LinkRow)
    (l : LinkRow) (h : l ∈ ls) : l ∈ tids.foldl (DBEntry.assocStep eid) ls := by
  induction tids generalizing ls with
  | nil => exact h
  | cons t ts ih =>
      rw [List.foldl_cons]
      apply ih
      unfold DBEntry.assocStep
      split
      · exact h
      · exact List.mem_append_left _ h

theorem assocStep_foldl_mem (eid : Nat) (tids : List Nat) (ls : List LinkRow) :
    ∀ tid ∈ tids, (⟨eid, tid⟩ : LinkRow) ∈ tids.foldl (DBEntry.assocStep eid) ls := by
  induction tids generalizing ls with
  | nil => intro tid h; cases h
  | cons t ts ih =>
      intro tid h
      rw [List.foldl_cons]
      rcases List.mem_cons.mp h with rfl | hmem
      · apply mem_assocStep_foldl
        unfold DBEntry.assocStep
        split
        · rename_i hc
          exact (link_any_iff_mem ls eid tid).mp hc
        · exact List.mem_append_right _ (by simp)
      · exact ih _ tid hmem

theorem assocStep_foldl_fixed (eid : Nat) (tids : List Nat) (ls : List LinkRow)
    (h : ∀ tid ∈ tids, (⟨eid, tid⟩ : LinkRow) ∈ ls) :
    tids.foldl (DBEntry.assocStep eid) ls = ls := by
  induction tids with
  | nil => rfl
  | cons t ts ih =>
      have hstep : DBEntry.assocStep eid ls t = ls := by
        unfold DBEntry.assocStep
        rw [if_pos ((link_any_iff_mem ls eid t).mpr (h t (by simp)))]
      rw [List.foldl_cons, hstep]
      exact ih (fun tid htid => h tid (List.mem_cons_of_mem _ htid))

/-- C4 (amended): `associateWithTopics`, `unlinkAllTopics` and
`unlinkTopicsByName` are idempotent — re-applying a call that succeeded
leaves the link table in the same end state — and `unlinkTopicsByName`
with an empty name list succeeds as a no-op; `associateWithTopics` with
an empty topic-id list, however, fails (its generated `INSERT` has an
empty `VALUES` list, a SQLite syntax error) instead of succeeding. -/
theorem link_mutations_idempotent (db : DB) (entry_id : Nat)
    (tids : List Nat) (names : List String) (db' : DB) :
    (DBEntry.associate_with_topics db entry_id tids = .ok db' →
      DBEntry.associate_with_topics db' entry_id tids = .ok db')
    ∧ DBEntry.unlink_all_topics (DBEntry.unlink_all_topics db entry_id) entry_id
        = DBEntry.unlink_all_topics db entry_id
    ∧ DBEntry.unlink_topics_by_name
        (DBEntry.unlink_topics_by_name db entry_id names) entry_id names
        = DBEntry.unlink_topics_by_name db entry_id names
    ∧ DBEntry.unlink_topics_by_name db entry_id [] = db
    ∧ (tids = [] →
        DBEntry.associate_with_topics db entry_id tids
          = .error "SQL syntax error: INSERT with empty VALUES list") := by
  refine ⟨?_, ?_, ?_, ?_, ?_⟩
  · intro h
    have hdb' := associate_links_eq_fold db entry_id tids db' h
    rw [DBEntry.associate_with_topics] at h ⊢
    split at h
    · exact absurd h (by simp)
    · split at h
      · exact absurd h (by simp)
      · split at h
        · exact absurd h (by simp)
        · rename_i hne hent htop
          rw [if_neg (by subst hdb'; simpa using hne),
              if_neg (by subst hdb'; simpa using hent),
              if_neg (by subst hdb'; simpa using htop)]
          subst hdb'
          simp only [Except.ok.injEq]
          have hfix : tids.foldl (DBEntry.assocStep entry_id)
              (tids.foldl (DBEntry.assocStep entry_id) db.links)
              = tids.foldl (DBEntry.assocStep entry_id) db.links :=
            assocStep_foldl_fixed entry_id tids _
              (fun tid htid => assocStep_foldl_mem entry_id tids db.links tid htid)
          simp [hfix]
  · simp [DBEntry.unlink_all_topics, List.filter_filter]
  · simp [DBEntry.unlink_topics_by_name, List.filter_filter]
  · have hany : ∀ ts : List TopicRow, (ts.any fun _ => false) = false := by
      intro ts
      induction ts with
      | nil => rfl
      | cons a as ih => simp [ih]
    simp [DBEntry.unlink_topics_by_name, hany]
  · rintro rfl
    rfl

/-- C4 counterexample: on a concrete store, `associate_with_topics`
with an empty topic list returns an error instead of succeeding as a
no-op. -/
theorem associate_empty_counterexample :
    DBEntry.associate_with_topics
        ⟨[⟨1, "e", "u", "NULL", "t"⟩], [⟨1, "a"⟩], [], 2, 2⟩ 1 []
      = .error "SQL syntax error: INSERT with empty VALUES list" := by
  rfl

/-- C4 witness: on a concrete store, a successful association re-applied
yields the same state, the unlink operations are idempotent, and an
empty unlink list is a no-op. -/
theorem link_mutations_idempotent_witness :
    DBEntry.associate_with_topics
        ⟨[⟨1, "e", "u", "NULL", "t"⟩], [⟨1, "a"⟩, ⟨2, "b"⟩], [⟨1, 1⟩, ⟨1, 2⟩], 2, 3⟩ 1 [1, 2]
      = .ok ⟨[⟨1, "e", "u", "NULL", "t"⟩], [⟨1, "a"⟩, ⟨2, "b"⟩], [⟨1, 1⟩, ⟨1, 2⟩], 2, 3⟩
    ∧ DBEntry.unlink_topics_by_name
        ⟨[⟨1, "e", "u", "NULL", "t"⟩], [⟨1, "a"⟩, ⟨2, "b"⟩], [⟨1, 1⟩, ⟨1, 2⟩], 2, 3⟩ 1 []
      = ⟨[⟨1, "e", "u", "NULL", "t"⟩], [⟨1, "a"⟩, ⟨2, "b"⟩], [⟨1, 1⟩, ⟨1, 2⟩], 2, 3⟩ := by
  constructor
  · exact (link_mutations_idempotent
      ⟨[⟨1, "e", "u", "NULL", "t"⟩], [⟨1, "a"⟩, ⟨2, "b"⟩], [], 2, 3⟩ 1 [1, 2] []
      ⟨[⟨1, "e", "u", "NULL", "t"⟩], [⟨1, "a"⟩, ⟨2, "b"⟩], [⟨1, 1⟩, ⟨1, 2⟩], 2, 3⟩).1 rfl
  · exact (link_mutations_idempotent
      ⟨[⟨1, "e", "u", "NULL", "t"⟩], [⟨1, "a"⟩, ⟨2, "b"⟩], [⟨1, 1⟩, ⟨1, 2⟩], 2, 3⟩ 1 [] []
      ⟨[⟨1, "e", "u", "NULL", "t"⟩], [⟨1, "a"⟩, ⟨2, "b"⟩], [⟨1, 1⟩, ⟨1, 2⟩], 2, 3⟩).2.2.2.1

/-- C8 witness: in a store holding one entry, a name collision and a
url collision each report the right column, and a fresh pair inserts. -/
theorem create_conflict_spec_witness :
    DBEntry.create ⟨[⟨1, "a", "u", "NULL", "t"⟩], [], [], 2, 1⟩ "a" "v" none "s"
      = (.error (DBEntry.conflictMsgFor "a" "name"),
         ⟨[⟨1, "a", "u", "NULL", "t"⟩], [], [], 2, 1⟩)
    ∧ DBEntry.create ⟨[⟨1, "a", "u", "NULL", "t"⟩], [], [], 2, 1⟩ "b" "u" none "s"
      = (.error (DBEntry.conflictMsgFor "b" "url"),
         ⟨[⟨1, "a", "u", "NULL", "t"⟩], [], [], 2, 1⟩)
    ∧ DBEntry.create ⟨[⟨1, "a", "u", "NULL", "t"⟩], [], [], 2, 1⟩ "b" "v" none "s"
      = (.ok (2, Entry.new "b" "v" none [] (some "s")),
         ⟨[⟨1, "a", "u", "NULL", "t"⟩, ⟨2, "b", "v", "NULL", "s"⟩], [], [], 3, 1⟩) := by
  refine ⟨?_, ?_, ?_⟩
  · exact (create_conflict_spec ⟨[⟨1, "a", "u", "NULL", "t"⟩], [], [], 2, 1⟩
      "a" "v" none "s").1 (by decide)
  · exact (create_conflict_spec ⟨[⟨1, "a", "u", "NULL", "t"⟩], [], [], 2, 1⟩
      "b" "u" none "s").2.1 (by decide) (by decide)
  · exact (create_conflict_spec ⟨[⟨1, "a", "u", "NULL", "t"⟩], [], [], 2, 1⟩
      "b" "v" none "s").2.2.1 (by decide) (by decide)

end Rlist
